import Mathlib

/-!
# Verification of the odds-aesthetic-KEIBA odds-drop monitoring system

Shallow embedding of the repository's data model and operations:

* the Drop Detector / Baseline Tracker of the ingestion pipeline
  (modelled from the spec; only its persisted schema is in the repository),
* `getRaceDetails` — the History Aggregator (server action),
* `getAnalysisData` and `MOCK_DATA` — the recent-alerts query of the
  dashboard page.

Numeric odds values are embedded as rationals (`ℚ`), capture timestamps
as naturals (`ℕ`).
-/

namespace Keiba

/-! ## Drop Detector (spec §4.2–4.3)

Modelled from the spec: the scraper that ingests odds and detects drops is
not part of the repository source (only its persisted schema and the
dashboard that consumes its output are), so the detector below follows the
spec's §4.3 step description literally. -/

/-- An alert record as persisted to `odds_analysis` (schema.sql):
runner number, display name, baseline ("previous") odds, current odds at
detection, computed drop ratio, detection timestamp. -/
structure AlertEvent where
  horse_number : ℕ
  horse_name : String
  previous_odds : ℚ
  current_odds : ℚ
  drop_rate : ℚ
  detected_at : ℕ
  deriving Repr, DecidableEq

/-- One incoming sample for a fixed (race, runner): odds value, capture
time, and the runner's display name as supplied by the feed. -/
structure Sample where
  odds : ℚ
  t : ℕ
  name : String
  deriving Repr, DecidableEq

/-- The alert threshold: a 20% drop. -/
def threshold : ℚ := 1/5

/-- Modelled from the spec: one Drop Detector step (§4.3) for a fixed
(race, runner).  Input: the baseline in force (`none` when no snapshot has
been seen yet) and the new sample; output: the new baseline and the alert
emitted at this tick, if any.
1. non-positive odds are invalid input and are skipped, baseline untouched;
2. with no baseline, the sample's odds become the baseline, no alert;
3. `drop = (prev - new) / prev`; a rise (`drop < 0`) resets the baseline
   with no alert; `drop ≥ 0.20` emits an alert and resets the baseline;
   a sub-threshold drop (`0 ≤ drop < 0.20`) leaves the baseline unchanged. -/
def processTick (baseline : Option ℚ) (s : Sample) :
    Option ℚ × Option AlertEvent :=
  if s.odds ≤ 0 then (baseline, none)
  else
    match baseline with
    | none => (some s.odds, none)
    | some prev =>
      if threshold ≤ (prev - s.odds) / prev then
        (some s.odds,
         some { horse_number := 0, horse_name := s.name,
                previous_odds := prev, current_odds := s.odds,
                drop_rate := (prev - s.odds) / prev, detected_at := s.t })
      else if (prev - s.odds) / prev < 0 then (some s.odds, none)
      else (some prev, none)

/-- Modelled from the spec: run the Drop Detector over a sequence of
samples for one (race, runner), starting from a given baseline; returns
the final baseline and the list of alerts emitted, in emission order. -/
def runDetector (baseline : Option ℚ) : List Sample → Option ℚ × List AlertEvent
  | [] => (baseline, [])
  | s :: rest =>
    ((runDetector (processTick baseline s).1 rest).1,
     (processTick baseline s).2.toList
       ++ (runDetector (processTick baseline s).1 rest).2)

/-- Modelled from the spec: whether some tick of the sequence produces a
drop `≥ 0.20` against the baseline in force at that tick, following the
baseline reset rules of §4.3 (reset on alert or rise, unchanged on a
sub-threshold drop). -/
def someTickFires (baseline : Option ℚ) : List Sample → Bool
  | [] => false
  | s :: rest =>
    if s.odds ≤ 0 then someTickFires baseline rest
    else
      match baseline with
      | none => someTickFires (some s.odds) rest
      | some prev =>
        if threshold ≤ (prev - s.odds) / prev then true
        else if (prev - s.odds) / prev < 0 then someTickFires (some s.odds) rest
        else someTickFires (some prev) rest

/-- Convenience: a sample with an empty display name. -/
def sampleAt (q : ℚ) (t : ℕ) : Sample := ⟨q, t, ""⟩

/-! ## History Aggregator — `getRaceDetails` (actions server module)

Embedding of the `getRaceDetails` server action: fetch the race's
snapshots ordered by `fetched_at` ascending (limit 1000), group by horse
number, emit per-horse details for the sorted horse numbers.  The JS
dereference `hist[hist.length - 1].odds` is embedded as `List.getLast?`,
with `none` (the `Option` failure) standing for the runtime `TypeError`
the dereference would raise on an empty group. -/

/-- A row of `odds_snapshots` (schema.sql): race, runner number, odds,
capture time. -/
structure Snapshot where
  race_id : ℕ
  horse_number : ℕ
  odds : ℚ
  fetched_at : ℕ
  deriving Repr, DecidableEq

/-- One point of a runner's displayed history (`{ time, odds }`); the
capture time is kept as the raw timestamp. -/
structure HistPoint where
  time : ℕ
  odds : ℚ
  deriving Repr, DecidableEq

/-- The fields of the alert object (`alertData`) that `getRaceDetails`
reads: runner number, display name, drop rate. -/
structure AlertData where
  horse_number : ℕ
  horse_name : String
  drop_rate : ℚ
  deriving Repr, DecidableEq

/-- The `HorseDetail` result type of the actions module.  `horse_name`
and `drop_rate` are optional (`undefined` for non-alert runners). -/
structure HorseDetail where
  horse_number : ℕ
  horse_name : Option String
  current_odds : ℚ
  history : List HistPoint
  is_alert : Bool
  drop_rate : Option ℚ
  deriving Repr, DecidableEq

/-- The group the `horseMap` accumulates for horse `n`: the history
points of `n`'s snapshots in arrival order (`forEach` push order). -/
def histFor (snaps : List Snapshot) (n : ℕ) : List HistPoint :=
  (snaps.filter (fun s => s.horse_number == n)).map (fun s => ⟨s.fetched_at, s.odds⟩)

/-- The keys of the `horseMap`, sorted ascending
(`Array.from(horseMap.keys()).sort((a, b) => a - b)`). -/
def horseNumbers (snaps : List Snapshot) : List ℕ :=
  List.insertionSort (· ≤ ·) (snaps.map (·.horse_number)).dedup

/-- The loop body for one horse number: reads the last history point
(`hist[hist.length - 1]`) and builds the `HorseDetail`; `none` models the
dereference failing on an empty group. -/
def mkDetail (ad : AlertData) (n : ℕ) (hist : List HistPoint) : Option HorseDetail :=
  match hist.getLast? with
  | none => none
  | some latest =>
    some { horse_number := n
           horse_name := if n = ad.horse_number then some ad.horse_name else none
           current_odds := latest.odds
           history := hist
           is_alert := if n = ad.horse_number then true else false
           drop_rate := if n = ad.horse_number then some ad.drop_rate else none }

/-- The `for (const hNum of horseNumbers)` loop: pushes one detail per
horse number, propagating a failed dereference. -/
def buildDetails (ad : AlertData) (snaps : List Snapshot) :
    List ℕ → Option (List HorseDetail)
  | [] => some []
  | n :: ns =>
    match mkDetail ad n (histFor snaps n), buildDetails ad snaps ns with
    | some d, some ds => some (d :: ds)
    | _, _ => none

/-- `getRaceDetails` on an already-fetched snapshot list: group by horse,
then emit details for the ascending horse numbers. -/
def getRaceDetails (snaps : List Snapshot) (ad : AlertData) :
    Option (List HorseDetail) :=
  buildDetails ad snaps (horseNumbers snaps)

/-- The store query of `getRaceDetails`: rows of the race, ordered by
`fetched_at` ascending, limit 1000. -/
def fetchSnapshots (db : List Snapshot) (raceId : ℕ) : List Snapshot :=
  (List.insertionSort (fun a b => a.fetched_at ≤ b.fetched_at)
    (db.filter (fun s => s.race_id == raceId))).take 1000

/-- The full `getRaceDetails` server action: returns `[]` when the store
client is not configured, otherwise fetches the race's snapshots and
aggregates them. -/
def getRaceDetailsFull (configured : Bool) (db : List Snapshot) (raceId : ℕ)
    (ad : AlertData) : Option (List HorseDetail) :=
  if configured then getRaceDetails (fetchSnapshots db raceId) ad else some []

/-! ## Dashboard page — `getAnalysisData` and `MOCK_DATA` (page.tsx) -/

/-- A row of `races` as selected by the dashboard's join: id, display
name (nullable), race number, venue. -/
structure RaceRow where
  id : String
  race_name : Option String
  race_number : ℕ
  location : String
  deriving Repr, DecidableEq

/-- A row of `odds_analysis` with its joined `races` parent (`none` when
the foreign key is null): the shape `getAnalysisData` consumes. -/
structure AlertRow where
  id : String
  races : Option RaceRow
  horse_name : String
  horse_number : ℕ
  previous_odds : ℚ
  current_odds : ℚ
  drop_rate : ℚ
  detected_at : ℕ
  deriving Repr, DecidableEq

/-- A stored odds snapshot as the dashboard's history query reads it. -/
structure SnapshotRow where
  race_id : String
  horse_number : ℕ
  odds : ℚ
  fetched_at : ℕ
  deriving Repr, DecidableEq

/-- The `AnalysisData` record the page renders. -/
structure AnalysisData where
  id : String
  race_id : Option String
  race_name : String
  race_number : ℕ
  location : String
  horse_name : String
  horse_number : ℕ
  previous_odds : ℚ
  current_odds : ℚ
  drop_rate : ℚ
  detected_at : ℕ
  history : List HistPoint
  deriving Repr, DecidableEq

/-- JavaScript `x || d` on an optional string: the default replaces both
a missing value and the empty (falsy) string. -/
def jsOrString (v : Option String) (d : String) : String :=
  match v with
  | none => d
  | some s => if s = "" then d else s

/-- The hardcoded two-element fallback `MOCK_DATA` of the page, with
`new Date().toISOString()` embedded as the current timestamp `now` and
the display times `HH:mm` as minutes of the day. -/
def MOCK_DATA (now : ℕ) : List AnalysisData :=
  [{ id := "1", race_id := some "mock1", race_name := "あずさ賞",
     race_number := 9, location := "京都", horse_name := "エステティック",
     horse_number := 4, previous_odds := 12, current_odds := 47/5,
     drop_rate := 21/100, detected_at := now,
     history := [⟨600, 27/2⟩, ⟨605, 12⟩, ⟨610, 56/5⟩, ⟨615, 47/5⟩] },
   { id := "2", race_id := some "mock2", race_name := "ヴィクトリアマイル(G1)",
     race_number := 11, location := "東京", horse_name := "アーバンシック",
     horse_number := 12, previous_odds := 17/2, current_odds := 26/5,
     drop_rate := 19/50, detected_at := now,
     history := [⟨870, 9⟩, ⟨880, 17/2⟩, ⟨885, 7⟩, ⟨890, 26/5⟩] }]

/-- The alert query of `getAnalysisData`: `odds_analysis` joined with
`races`, ordered by `detected_at` descending, limit 20. -/
def recentAlerts (tbl : List AlertRow) : List AlertRow :=
  (List.insertionSort (fun a b => b.detected_at ≤ a.detected_at) tbl).take 20

/-- The per-alert history query: snapshots of the alert's (race, runner),
ordered by `fetched_at` ascending, limit 20; an absent race join
(`item.races?.id` undefined) matches nothing. -/
def fetchAlertHistory (snapdb : List SnapshotRow) (rid : Option String)
    (hn : ℕ) : List SnapshotRow :=
  match rid with
  | none => []
  | some r =>
    (List.insertionSort (fun a b => a.fetched_at ≤ b.fetched_at)
      (snapdb.filter (fun s => s.race_id == r && s.horse_number == hn))).take 20

/-- The `alerts.map(...)` body: merge one alert row with its race
metadata (with the `|| 'Race'`, `|| 0`, `|| 'JRA'` fallbacks) and its
fetched history. -/
def populate (snapdb : List SnapshotRow) (item : AlertRow) : AnalysisData :=
  { id := item.id
    race_id := item.races.map (·.id)
    race_name := jsOrString (item.races.bind (·.race_name)) "Race"
    race_number := ((item.races.map (·.race_number)).getD 0)
    location := jsOrString (item.races.map (·.location)) "JRA"
    horse_name := item.horse_name
    horse_number := item.horse_number
    previous_odds := item.previous_odds
    current_odds := item.current_odds
    drop_rate := item.drop_rate
    detected_at := item.detected_at
    history := (fetchAlertHistory snapdb (item.races.map (·.id))
      item.horse_number).map (fun s => ⟨s.fetched_at, s.odds⟩) }

/-- `getAnalysisData`: mock fallback when the client is unconfigured,
the alert query errors (`store = none`), or it returns no alerts;
otherwise the fetched alerts, each populated. -/
def getAnalysisData (configured : Bool) (store : Option (List AlertRow))
    (snapdb : List SnapshotRow) (now : ℕ) : List AnalysisData :=
  if configured = false then MOCK_DATA now
  else
    match store with
    | none => MOCK_DATA now
    | some tbl =>
      if recentAlerts tbl = [] then MOCK_DATA now
      else (recentAlerts tbl).map (populate snapdb)

instance : IsTotal AlertRow (fun a b => b.detected_at ≤ a.detected_at) :=
  ⟨fun a b => Nat.le_total b.detected_at a.detected_at⟩

instance : IsTrans AlertRow (fun a b => b.detected_at ≤ a.detected_at) :=
  ⟨fun _ _ _ h1 h2 => le_trans h2 h1⟩

/-! ## Concrete inputs used by the witnesses and the C8 evaluation -/

/-- A concrete two-runner race: runner 7 then runner 3, interleaved
capture times 0 and 1. -/
def exSnaps : List Snapshot := [⟨1, 7, 10, 0⟩, ⟨1, 3, 5, 1⟩]

/-- A concrete alert context naming runner 7. -/
def exAlert : AlertData := ⟨7, "A", 3/10⟩

/-- The aggregated view of `exSnaps` under `exAlert`. -/
def exRes : List HorseDetail :=
  [⟨3, none, 5, [⟨1, 5⟩], false, none⟩,
   ⟨7, some "A", 10, [⟨0, 10⟩], true, some (3/10)⟩]

/-- A store with 21 snapshots for (race r1, runner 5), capture times
0..20. -/
def ex8db : List SnapshotRow := (List.range 21).map (fun t => ⟨"r1", 5, 2, t⟩)

/-- An alert for runner 5 of race r1. -/
def ex8item : AlertRow :=
  ⟨"a1", some ⟨"r1", some "RaceX", 9, "Tokyo"⟩, "Horse", 5, 10, 8, 1/5, 100⟩

/-! ## Theorems -/

theorem runDetector_events_invariant (b : Option ℚ) (samples : List Sample) :
    ∀ e ∈ (runDetector b samples).2,
      e.drop_rate = (e.previous_odds - e.current_odds) / e.previous_odds ∧
      threshold ≤ e.drop_rate := by
  induction samples generalizing b with
  | nil => simp [runDetector]
  | cons s rest ih =>
    intro e he
    simp only [runDetector, List.mem_append] at he
    rcases he with h | h
    · revert h
      unfold processTick
      by_cases h0 : s.odds ≤ 0
      · simp [h0]
      · simp only [h0, if_false]
        cases b with
        | none => simp
        | some prev =>
          by_cases hth : threshold ≤ (prev - s.odds) / prev
          · simp only [hth, if_true, Option.toList_some, List.mem_singleton]
            intro he'
            subst he'
            exact ⟨rfl, hth⟩
          · by_cases hneg : (prev - s.odds) / prev < 0
            · simp [hth, hneg]
            · simp [hth, hneg]
    · exact ih _ e h

theorem runDetector_fires_iff (b : Option ℚ) (samples : List Sample) :
    (runDetector b samples).2 ≠ [] ↔ someTickFires b samples = true := by
  induction samples generalizing b with
  | nil => simp [runDetector, someTickFires]
  | cons s rest ih =>
    simp only [runDetector, someTickFires]
    unfold processTick
    by_cases h0 : s.odds ≤ 0
    · simpa [h0] using ih b
    · simp only [h0, if_false]
      cases b with
      | none => simpa using ih (some s.odds)
      | some prev =>
        by_cases hth : threshold ≤ (prev - s.odds) / prev
        · simp [hth]
        · by_cases hneg : (prev - s.odds) / prev < 0
          · simpa [hth, hneg] using ih (some s.odds)
          · simpa [hth, hneg] using ih (some prev)

/-- C1 -/
theorem claim_C1_baseline_policy :
    (∀ (prev : ℚ) (s : Sample), 0 < s.odds →
        0 ≤ (prev - s.odds) / prev → (prev - s.odds) / prev < threshold →
        processTick (some prev) s = (some prev, none)) ∧
    (∀ (prev : ℚ) (s : Sample), 0 < s.odds →
        threshold ≤ (prev - s.odds) / prev →
        (processTick (some prev) s).1 = some s.odds ∧
        (processTick (some prev) s).2 ≠ none) ∧
    (∀ (prev : ℚ) (s : Sample), 0 < s.odds →
        (prev - s.odds) / prev < 0 →
        processTick (some prev) s = (some s.odds, none)) ∧
    processTick (some 10) (sampleAt 9 1) = (some 10, none) ∧
    runDetector (some 10) [sampleAt 9 1, sampleAt 7 2] =
      (some 7, [⟨0, "", 10, 7, 3/10, 2⟩]) := by
  refine ⟨?_, ?_, ?_, ?_, ?_⟩
  · intro prev s h0 hge hlt
    simp [processTick, not_le.2 h0, not_le.2 hlt, not_lt.2 hge]
  · intro prev s h0 hth
    simp [processTick, not_le.2 h0, hth]
  · intro prev s h0 hneg
    have hnt : ¬ threshold ≤ (prev - s.odds) / prev :=
      not_le.2 (hneg.trans (by norm_num [threshold]))
    simp [processTick, not_le.2 h0, hnt, hneg]
  · norm_num [processTick, sampleAt, threshold]
  · norm_num [runDetector, processTick, sampleAt, threshold]

theorem claim_C1_witness :
    processTick (some 10) (sampleAt 9 1) = (some 10, none) ∧
    (processTick (some 20) (sampleAt 15 3)).1 = some 15 ∧
    processTick (some 10) (sampleAt 12 4) = (some 12, none) := by
  refine ⟨?_, ?_, ?_⟩
  · exact claim_C1_baseline_policy.1 10 (sampleAt 9 1)
      (by norm_num [sampleAt]) (by norm_num [sampleAt]) (by norm_num [sampleAt, threshold])
  · exact (claim_C1_baseline_policy.2.1 20 (sampleAt 15 3)
      (by norm_num [sampleAt]) (by norm_num [sampleAt, threshold])).1
  · exact claim_C1_baseline_policy.2.2.1 10 (sampleAt 12 4)
      (by norm_num [sampleAt]) (by norm_num [sampleAt])

/-- Claim C2: every emitted AlertEvent satisfies
`drop_rate = (previous_odds - current_odds) / previous_odds` and
`drop_rate ≥ 0.20` at creation time, and an AlertEvent is emitted iff
some tick's drop against the baseline in force at that tick reaches the
threshold, per the §4.3 reset rules. -/
theorem claim_C2_alert_invariant_and_iff (b : Option ℚ) (samples : List Sample) :
    (∀ e ∈ (runDetector b samples).2,
        e.drop_rate = (e.previous_odds - e.current_odds) / e.previous_odds ∧
        threshold ≤ e.drop_rate) ∧
    ((runDetector b samples).2 ≠ [] ↔ someTickFires b samples = true) :=
  ⟨runDetector_events_invariant b samples, runDetector_fires_iff b samples⟩

theorem claim_C2_witness :
    (⟨0, "", 10, 7, 3/10, 2⟩ : AlertEvent).drop_rate =
      ((⟨0, "", 10, 7, 3/10, 2⟩ : AlertEvent).previous_odds -
        (⟨0, "", 10, 7, 3/10, 2⟩ : AlertEvent).current_odds) /
        (⟨0, "", 10, 7, 3/10, 2⟩ : AlertEvent).previous_odds ∧
    threshold ≤ (⟨0, "", 10, 7, 3/10, 2⟩ : AlertEvent).drop_rate ∧
    someTickFires (some 10) [sampleAt 9 1, sampleAt 7 2] = true := by
  have h := claim_C2_alert_invariant_and_iff (some 10) [sampleAt 9 1, sampleAt 7 2]
  have hmem : (⟨0, "", 10, 7, 3/10, 2⟩ : AlertEvent) ∈
      (runDetector (some 10) [sampleAt 9 1, sampleAt 7 2]).2 := by
    norm_num [runDetector, processTick, sampleAt, threshold]
  have hinv := h.1 _ hmem
  refine ⟨hinv.1, hinv.2, h.2.1 fun hnil => ?_⟩
  rw [hnil] at hmem
  exact absurd hmem (List.not_mem_nil _)

theorem mem_horseNumbers {snaps : List Snapshot} {n : ℕ} :
    n ∈ horseNumbers snaps ↔ ∃ s ∈ snaps, s.horse_number = n := by
  simp [horseNumbers, List.mem_insertionSort, List.mem_dedup]

theorem histFor_ne_nil {snaps : List Snapshot} {n : ℕ}
    (h : n ∈ horseNumbers snaps) : histFor snaps n ≠ [] := by
  rcases mem_horseNumbers.1 h with ⟨s, hs, hn⟩
  have hmem : s ∈ snaps.filter (fun s => s.horse_number == n) := by
    simp [List.mem_filter, hs, hn]
  intro hemp
  simp only [histFor, List.map_eq_nil_iff] at hemp
  rw [hemp] at hmem
  exact absurd hmem (List.not_mem_nil s)

theorem mkDetail_isSome {ad : AlertData} {n : ℕ} {hist : List HistPoint}
    (h : hist ≠ []) : ∃ d, mkDetail ad n hist = some d := by
  unfold mkDetail
  cases hl : hist.getLast? with
  | none => exact absurd (List.getLast?_eq_none_iff.1 hl) h
  | some latest => exact ⟨_, rfl⟩

theorem mkDetail_inv {ad : AlertData} {n : ℕ} {hist : List HistPoint}
    {d : HorseDetail} (h : mkDetail ad n hist = some d) :
    d.horse_number = n ∧ d.history = hist ∧
    (∃ latest, hist.getLast? = some latest ∧ d.current_odds = latest.odds) ∧
    d.horse_name = (if n = ad.horse_number then some ad.horse_name else none) ∧
    d.is_alert = (if n = ad.horse_number then true else false) ∧
    d.drop_rate = (if n = ad.horse_number then some ad.drop_rate else none) := by
  unfold mkDetail at h
  cases hl : hist.getLast? with
  | none => rw [hl] at h; exact absurd h (by simp)
  | some latest =>
    rw [hl] at h
    simp only [Option.some_inj] at h
    subst h
    exact ⟨rfl, rfl, ⟨latest, rfl, rfl⟩, rfl, rfl, rfl⟩

theorem buildDetails_eq_some {ad : AlertData} {snaps : List Snapshot} :
    ∀ {ns : List ℕ}, (∀ n ∈ ns, histFor snaps n ≠ []) →
      ∃ res, buildDetails ad snaps ns = some res ∧
        res.map (·.horse_number) = ns ∧
        ∀ d ∈ res, ∃ n ∈ ns, mkDetail ad n (histFor snaps n) = some d := by
  intro ns
  induction ns with
  | nil => intro _; exact ⟨[], rfl, rfl, by simp⟩
  | cons n ns ih =>
    intro h
    rcases @mkDetail_isSome ad n (histFor snaps n) (h n (by simp)) with ⟨d, hd⟩
    rcases ih (fun m hm => h m (List.mem_cons_of_mem _ hm)) with ⟨res, hres, hmap, hmem⟩
    refine ⟨d :: res, ?_, ?_, ?_⟩
    · simp [buildDetails, hd, hres]
    · simp only [List.map_cons, hmap, (mkDetail_inv hd).1]
    · intro e hem
      rcases List.mem_cons.1 hem with h1 | h1
      · exact ⟨n, by simp, by rw [← h1] at hd; exact hd⟩
      · rcases hmem e h1 with ⟨m, hm1, hm2⟩
        exact ⟨m, List.mem_cons_of_mem _ hm1, hm2⟩

/-- Deterministic restatement of the aggregator run: a successful
`getRaceDetails` result lists exactly the sorted horse numbers, each
detail built by `mkDetail` from its group. -/
theorem getRaceDetails_char {snaps : List Snapshot} {ad : AlertData}
    {res : List HorseDetail} (h : getRaceDetails snaps ad = some res) :
    res.map (·.horse_number) = horseNumbers snaps ∧
    ∀ d ∈ res, ∃ n ∈ horseNumbers snaps,
      mkDetail ad n (histFor snaps n) = some d := by
  rcases @buildDetails_eq_some ad snaps (horseNumbers snaps)
      (fun n hn => histFor_ne_nil hn) with ⟨res', hres', hmap, hmem⟩
  rw [getRaceDetails, hres'] at h
  cases Option.some_inj.1 h
  exact ⟨hmap, hmem⟩

/-- Claim C3: in the per-race view of `getRaceDetails`, only the runner
whose number equals the supplied alert's runner number carries a name and
a drop rate; every other runner's name and drop-rate fields are `none`
and its `is_alert` flag is `false`. -/
theorem claim_C3_only_alert_runner_named :
    ∀ (snaps : List Snapshot) (ad : AlertData) (res : List HorseDetail),
      getRaceDetails snaps ad = some res →
      ∀ d ∈ res,
        (d.horse_number ≠ ad.horse_number →
          d.horse_name = none ∧ d.drop_rate = none ∧ d.is_alert = false) ∧
        (d.horse_number = ad.horse_number →
          d.horse_name = some ad.horse_name ∧ d.drop_rate = some ad.drop_rate ∧
          d.is_alert = true) := by
  intro snaps ad res hres d hd
  rcases (getRaceDetails_char hres).2 d hd with ⟨n, _, hmk⟩
  rcases mkDetail_inv hmk with ⟨hnum, _, _, hname, halert, hdr⟩
  constructor
  · intro hne
    rw [hnum] at hne
    rw [hname, hdr, halert, if_neg hne, if_neg hne, if_neg hne]
    exact ⟨rfl, rfl, rfl⟩
  · intro heq
    rw [hnum] at heq
    rw [hname, hdr, halert, if_pos heq, if_pos heq, if_pos heq]
    exact ⟨rfl, rfl, rfl⟩

/-- Claim C4: the list returned by `getRaceDetails` is sorted by runner
number in strictly ascending numeric order, for every snapshot input. -/
theorem claim_C4_result_sorted_ascending :
    ∀ (snaps : List Snapshot) (ad : AlertData) (res : List HorseDetail),
      getRaceDetails snaps ad = some res →
      res.Pairwise (fun a b => a.horse_number < b.horse_number) := by
  intro snaps ad res hres
  have hmap := (getRaceDetails_char hres).1
  have hsorted : List.Sorted (· ≤ ·) (horseNumbers snaps) :=
    List.sorted_insertionSort _ _
  have hnodup : (horseNumbers snaps).Nodup :=
    ((List.perm_insertionSort _ _).nodup_iff).2 (List.nodup_dedup _)
  have hlt : List.Pairwise (· < ·) (horseNumbers snaps) :=
    (hsorted.and hnodup).imp fun h => lt_of_le_of_ne h.1 h.2
  rw [← hmap] at hlt
  exact (List.pairwise_map).1 hlt

/-- Claim C5: each runner's history in the `getRaceDetails` result is its
snapshot group in fetch order — ascending capture time when the fetched
snapshots are so ordered — and its `current_odds` is the odds of the last
history element. -/
theorem claim_C5_history_order_and_latest :
    ∀ (snaps : List Snapshot) (ad : AlertData) (res : List HorseDetail),
      List.Pairwise (fun a b : Snapshot => a.fetched_at ≤ b.fetched_at) snaps →
      getRaceDetails snaps ad = some res →
      ∀ d ∈ res,
        d.history = histFor snaps d.horse_number ∧
        List.Pairwise (fun p q : HistPoint => p.time ≤ q.time) d.history ∧
        ∃ p, d.history.getLast? = some p ∧ d.current_odds = p.odds := by
  intro snaps ad res hsorted hres d hd
  rcases (getRaceDetails_char hres).2 d hd with ⟨n, _, hmk⟩
  rcases mkDetail_inv hmk with ⟨hnum, hhist, hlast, _⟩
  refine ⟨by rw [hhist, hnum], ?_, ?_⟩
  · rw [hhist]
    unfold histFor
    exact (List.pairwise_map).2 ((hsorted.filter _).imp fun h => h)
  · rcases hlast with ⟨p, hp1, hp2⟩
    exact ⟨p, by rw [hhist]; exact hp1, hp2⟩

/-- Claim C6: a race with zero snapshots, and a query for a race id that
matches no stored snapshot, both produce an empty list from
`getRaceDetails`, not a failure. -/
theorem claim_C6_empty_race_empty_result :
    (∀ ad : AlertData, getRaceDetails [] ad = some []) ∧
    (∀ (db : List Snapshot) (raceId : ℕ) (ad : AlertData),
      (∀ s ∈ db, s.race_id ≠ raceId) →
      getRaceDetailsFull true db raceId ad = some []) := by
  constructor
  · intro ad; rfl
  · intro db raceId ad h
    have hfil : db.filter (fun s => s.race_id == raceId) = [] := by
      simp only [List.filter_eq_nil_iff, beq_iff_eq]
      exact h
    unfold getRaceDetailsFull fetchSnapshots
    rw [hfil]
    rfl

/-- Claim C10: `getRaceDetails` never dereferences past the end of a
group: it always succeeds, every returned detail has a non-empty history,
and a runner number appears in the result only if some input snapshot
carries it. -/
theorem claim_C10_no_empty_history :
    ∀ (snaps : List Snapshot) (ad : AlertData),
      (getRaceDetails snaps ad).isSome = true ∧
      ∀ res, getRaceDetails snaps ad = some res →
        ∀ d ∈ res, 0 < d.history.length ∧
          ∃ s ∈ snaps, s.horse_number = d.horse_number := by
  intro snaps ad
  rcases @buildDetails_eq_some ad snaps (horseNumbers snaps)
      (fun n hn => histFor_ne_nil hn) with ⟨res', hres', _, _⟩
  constructor
  · rw [getRaceDetails, hres']; rfl
  · intro res hres d hd
    rcases (getRaceDetails_char hres).2 d hd with ⟨n, hn, hmk⟩
    rcases mkDetail_inv hmk with ⟨hnum, hhist, _, _⟩
    constructor
    · rw [hhist]
      exact List.length_pos.2 (histFor_ne_nil hn)
    · rcases mem_horseNumbers.1 hn with ⟨s, hs, hsn⟩
      exact ⟨s, hs, by rw [hsn, hnum]⟩

theorem exRes_eq : getRaceDetails exSnaps exAlert = some exRes := rfl

theorem claim_C3_witness :
    (exRes.get ⟨0, by simp [exRes]⟩).horse_name = none ∧
    (exRes.get ⟨0, by simp [exRes]⟩).drop_rate = none ∧
    (exRes.get ⟨0, by simp [exRes]⟩).is_alert = false ∧
    (exRes.get ⟨1, by simp [exRes]⟩).horse_name = some "A" ∧
    (exRes.get ⟨1, by simp [exRes]⟩).drop_rate = some (3/10) ∧
    (exRes.get ⟨1, by simp [exRes]⟩).is_alert = true := by
  have h := claim_C3_only_alert_runner_named exSnaps exAlert exRes exRes_eq
  have h0 := (h (exRes.get ⟨0, by simp [exRes]⟩) (exRes.get_mem _ _)).1
    (by simp [exRes, exAlert])
  have h1 := (h (exRes.get ⟨1, by simp [exRes]⟩) (exRes.get_mem _ _)).2
    (by simp [exRes, exAlert])
  exact ⟨h0.1, h0.2.1, h0.2.2, h1.1, h1.2.1, h1.2.2⟩

theorem claim_C4_witness :
    exRes.Pairwise (fun a b => a.horse_number < b.horse_number) :=
  claim_C4_result_sorted_ascending exSnaps exAlert exRes exRes_eq

theorem claim_C5_witness :
    List.Pairwise (fun p q : HistPoint => p.time ≤ q.time)
      ((⟨7, some "A", 10, [⟨0, 10⟩], true, some (3/10)⟩ : HorseDetail)).history ∧
    ((⟨7, some "A", 10, [⟨0, 10⟩], true, some (3/10)⟩ : HorseDetail)).history =
      histFor exSnaps 7 := by
  have h := claim_C5_history_order_and_latest exSnaps exAlert exRes
    (by simp [exSnaps]) exRes_eq
    ⟨7, some "A", 10, [⟨0, 10⟩], true, some (3/10)⟩
    (List.mem_cons_of_mem _ (List.mem_cons_self _ _))
  exact ⟨h.2.1, h.1⟩

theorem claim_C6_witness :
    getRaceDetailsFull true [⟨1, 3, 5, 0⟩] 2 exAlert = some [] :=
  claim_C6_empty_race_empty_result.2 [⟨1, 3, 5, 0⟩] 2 exAlert
    (by intro s hs; simp only [List.mem_singleton] at hs; subst hs; decide)

theorem claim_C10_witness :
    (getRaceDetails exSnaps exAlert).isSome = true ∧
    0 < ((⟨3, none, 5, [⟨1, 5⟩], false, none⟩ : HorseDetail)).history.length := by
  have h := claim_C10_no_empty_history exSnaps exAlert
  exact ⟨h.1,
    (h.2 exRes exRes_eq ⟨3, none, 5, [⟨1, 5⟩], false, none⟩
      (List.mem_cons_self _ _)).1⟩

theorem recentAlerts_eq_nil_iff {tbl : List AlertRow} :
    recentAlerts tbl = [] ↔ tbl = [] := by
  constructor
  · intro h
    rcases List.take_eq_nil_iff.1 h with h20 | hnil
    · exact absurd h20 (by norm_num)
    · have hp := List.perm_insertionSort
        (fun a b : AlertRow => b.detected_at ≤ a.detected_at) tbl
      rw [hnil] at hp
      exact (hp.symm).eq_nil
  · intro h; subst h; rfl

/-- Claim C7: with a configured client and a non-erroring store holding
at least one alert, `getAnalysisData` returns at most 20 alerts, ordered
newest first by `detected_at`, each the population of a stored alert row
with its race's metadata (name, number, location, with the code's
fallbacks for an absent join). -/
theorem claim_C7_recent_alerts_query :
    ∀ (tbl : List AlertRow) (snapdb : List SnapshotRow) (now : ℕ),
      tbl ≠ [] →
      (getAnalysisData true (some tbl) snapdb now).length ≤ 20 ∧
      (getAnalysisData true (some tbl) snapdb now).Pairwise
        (fun a b => b.detected_at ≤ a.detected_at) ∧
      ∀ a ∈ getAnalysisData true (some tbl) snapdb now,
        ∃ item ∈ tbl,
          a = populate snapdb item ∧
          a.id = item.id ∧ a.detected_at = item.detected_at ∧
          a.horse_name = item.horse_name ∧ a.horse_number = item.horse_number ∧
          a.previous_odds = item.previous_odds ∧
          a.current_odds = item.current_odds ∧ a.drop_rate = item.drop_rate ∧
          a.race_name = jsOrString (item.races.bind (·.race_name)) "Race" ∧
          a.race_number = (item.races.map (·.race_number)).getD 0 ∧
          a.location = jsOrString (item.races.map (·.location)) "JRA" := by
  intro tbl snapdb now htbl
  have hne : ¬ recentAlerts tbl = [] := fun h => htbl (recentAlerts_eq_nil_iff.1 h)
  have hres : getAnalysisData true (some tbl) snapdb now =
      (recentAlerts tbl).map (populate snapdb) := by
    unfold getAnalysisData
    rw [if_neg (by simp)]
    exact if_neg hne
  refine ⟨?_, ?_, ?_⟩
  · rw [hres, List.length_map]
    unfold recentAlerts
    rw [List.length_take]
    exact min_le_left _ _
  · rw [hres]
    refine (List.pairwise_map).2 ?_
    have hsorted : List.Pairwise (fun a b : AlertRow => b.detected_at ≤ a.detected_at)
        (recentAlerts tbl) := by
      unfold recentAlerts
      exact ((List.sorted_insertionSort _ tbl).sublist (List.take_sublist _ _))
    exact hsorted.imp fun h => h
  · intro a ha
    rw [hres] at ha
    rcases List.mem_map.1 ha with ⟨item, hitem, hpop⟩
    have hmem : item ∈ tbl := by
      have hsub : item ∈ List.insertionSort
          (fun a b : AlertRow => b.detected_at ≤ a.detected_at) tbl :=
        (List.take_sublist _ _).mem hitem
      exact (List.mem_insertionSort _).1 hsub
    exact ⟨item, hmem, hpop.symm, by rw [← hpop]; exact ⟨rfl, rfl, rfl, rfl, rfl,
      rfl, rfl, rfl, rfl, rfl⟩⟩

theorem claim_C7_witness :
    (getAnalysisData true (some [⟨"a1", none, "H", 1, 10, 7, 3/10, 5⟩]) [] 0).length ≤ 20 ∧
    (getAnalysisData true (some [⟨"a1", none, "H", 1, 10, 7, 3/10, 5⟩]) [] 0).Pairwise
      (fun a b => b.detected_at ≤ a.detected_at) := by
  have h := claim_C7_recent_alerts_query [⟨"a1", none, "H", 1, 10, 7, 3/10, 5⟩] [] 0
    (List.cons_ne_nil _ _)
  exact ⟨h.1, h.2.1⟩

/-- Claim C9: `getAnalysisData` falls back to the fixed two-element
`MOCK_DATA` when the client is unconfigured, when the alert query errors,
or when it returns zero alerts; and its result is never empty. -/
theorem claim_C9_mock_fallback :
    (∀ (store : Option (List AlertRow)) (snapdb : List SnapshotRow) (now : ℕ),
      getAnalysisData false store snapdb now = MOCK_DATA now) ∧
    (∀ (snapdb : List SnapshotRow) (now : ℕ),
      getAnalysisData true none snapdb now = MOCK_DATA now) ∧
    (∀ (snapdb : List SnapshotRow) (now : ℕ),
      getAnalysisData true (some []) snapdb now = MOCK_DATA now) ∧
    (∀ now : ℕ, (MOCK_DATA now).length = 2) ∧
    (∀ (configured : Bool) (store : Option (List AlertRow))
      (snapdb : List SnapshotRow) (now : ℕ),
      1 ≤ (getAnalysisData configured store snapdb now).length) := by
  refine ⟨fun _ _ _ => rfl, fun _ _ => rfl, fun _ _ => rfl, fun _ => rfl, ?_⟩
  intro configured store snapdb now
  cases configured with
  | false => exact by simp [getAnalysisData, MOCK_DATA]
  | true =>
    cases store with
    | none => exact by simp [getAnalysisData, MOCK_DATA]
    | some tbl =>
      by_cases h : recentAlerts tbl = []
      · simp [getAnalysisData, h, MOCK_DATA]
      · have : getAnalysisData true (some tbl) snapdb now =
            (recentAlerts tbl).map (populate snapdb) := by
          unfold getAnalysisData
          rw [if_neg (by simp)]
          exact if_neg h
        rw [this, List.length_map]
        exact Nat.one_le_iff_ne_zero.2 fun hz =>
          h (List.length_eq_zero.1 hz)

/-- Claim C8, evaluated at the failing input: with 21 stored points the
attached history is the capture times 0..19 — the oldest 20 points — and
the most recent point (time 20), though present in the store, is absent
from the history window. -/
theorem claim_C8_window_keeps_oldest_points :
    (populate ex8db ex8item).history.map (·.time) = List.range 20 ∧
    (ex8db.map (·.fetched_at)).contains 20 = true ∧
    ((populate ex8db ex8item).history.map (·.time)).contains 20 = false := by
  refine ⟨by decide, by decide, by decide⟩

end Keiba
